import Mathlib

/-!
Verification of the device-state translation layer of an ASUS laptop control
GUI, shallowly embedded from the backend module that wraps the asusctl CLI
tool, a property-bus introspection utility (busctl) and the slash LED-bar
config file. Subprocess execution and file reads are abstracted as explicit
parameters carrying the outcome the OS would deliver; everything else is a
direct translation of the source functions.
-/

set_option maxRecDepth 4000

-- ============================================================================
-- String primitives (executable models of the Rust str operations used)
-- ============================================================================

/-- Is the first list a prefix of the second (models Rust `str::starts_with`). -/
def isPrefOf : List Char → List Char → Bool
  | [], _ => true
  | _ :: _, [] => false
  | a :: as, b :: bs => a == b && isPrefOf as bs

/-- Does `needle` occur as a contiguous substring of `hay` (models `str::contains`). -/
def hasSub (hay needle : List Char) : Bool :=
  match hay with
  | [] => needle.isEmpty
  | _ :: t => isPrefOf needle hay || hasSub t needle

/-- `str::contains` on strings. -/
def strContains (hay needle : String) : Bool :=
  hasSub hay.data needle.data

/-- `str::starts_with` on strings. -/
def startsWithStr (s p : String) : Bool :=
  isPrefOf p.data s.data

/-- Whitespace trim on a character list (models `str::trim`; the inputs of
interest are ASCII, where Rust and this definition agree). -/
def trimChars (l : List Char) : List Char :=
  ((l.dropWhile Char.isWhitespace).reverse.dropWhile Char.isWhitespace).reverse

/-- `str::trim` on strings. -/
def strTrim (s : String) : String :=
  ⟨trimChars s.data⟩

/-- Drop a prefix of the length of `p` (models `str::strip_prefix` after a
successful `starts_with` test). -/
def dropPref (s p : String) : String :=
  ⟨s.data.drop p.data.length⟩

/-- Split a character list at every occurrence of `c` (models `str::split(c)`). -/
def splitOnChar (c : Char) : List Char → List (List Char)
  | [] => [[]]
  | a :: as =>
    if a == c then
      [] :: splitOnChar c as
    else
      match splitOnChar c as with
      | [] => [[a]]
      | h :: t => (a :: h) :: t

/-- Strip one trailing carriage return (used by the line splitter). -/
def stripTrailCR (l : List Char) : List Char :=
  match l.reverse with
  | '\r' :: rest => rest.reverse
  | _ => l

/-- Post-process the pieces of a newline split the way Rust `str::lines` does:
every piece except the final one had a newline terminator, so it loses one
trailing carriage return; a final empty piece (trailing newline) is dropped. -/
def rustLinesAux : List (List Char) → List (List Char)
  | [] => []
  | [lst] => if lst.isEmpty then [] else [lst]
  | p :: rest => stripTrailCR p :: rustLinesAux rest

/-- `str::lines` on strings. -/
def rustLines (s : String) : List String :=
  (rustLinesAux (splitOnChar '\n' s.data)).map (fun l => ⟨l⟩)

/-- Drop every trailing comma (models `str::trim_end_matches(',')`, which
removes the suffix repeatedly). -/
def dropTrailCommas (l : List Char) : List Char :=
  (l.reverse.dropWhile (fun c => c == ',')).reverse

/-- Numeric value of a digit string. -/
def digitsToNat (l : List Char) : Nat :=
  l.foldl (fun acc c => acc * 10 + (c.toNat - 48)) 0

/-- Model of Rust `str::parse::<u32>()`: an optional leading plus sign, then
at least one decimal digit, rejecting values that overflow 32 bits. -/
def parseU32 (l : List Char) : Option Nat :=
  let l2 := match l with
    | '+' :: rest => rest
    | _ => l
  if l2.isEmpty then none
  else if l2.all (fun c => c.isDigit) then
    let n := digitsToNat l2
    if n < 4294967296 then some n else none
  else none

/-- ASCII lowercase of a character (models `str::to_lowercase` on the ASCII
inputs the parsers compare against). -/
def lowerChar (c : Char) : Char :=
  if 65 ≤ c.toNat && c.toNat ≤ 90 then Char.ofNat (c.toNat + 32) else c

/-- ASCII lowercase of a string. -/
def lowerStr (s : String) : String :=
  ⟨s.data.map lowerChar⟩

-- ============================================================================
-- Error type and process-execution model
-- ============================================================================

deriving instance DecidableEq for Except

/-- The error currency of the whole backend (enum `AsusctlError`). -/
inductive AsusctlError where
  | NotInstalled
  | ServiceNotRunning
  | CommandFailed (msg : String)
  | ParseError (msg : String)
deriving DecidableEq, Repr

/-- Outcome of a failed `Command::output()` spawn: whether the io error kind
was `NotFound`, and the error's display text. -/
structure SpawnError where
  isNotFound : Bool
  msg : String
deriving DecidableEq, Repr

/-- Captured output of a completed child process: stdout and stderr after
lossy UTF-8 conversion, and `status.success()`. -/
structure CmdOutput where
  stdout : String
  stderr : String
  success : Bool
deriving DecidableEq, Repr

/-- The process executor `run_asusctl`, with the subprocess spawn outcome made
an explicit argument. Spawn failure of kind `NotFound` becomes `NotInstalled`,
any other spawn failure becomes `CommandFailed`; once output is captured,
stderr containing "Connection refused" or "asusd" yields `ServiceNotRunning`,
and otherwise the stdout text is returned regardless of the exit status. -/
def run_asusctl (spawn : Except SpawnError CmdOutput) : Except AsusctlError String :=
  match spawn with
  | .error e =>
    .error (if e.isNotFound then AsusctlError.NotInstalled else AsusctlError.CommandFailed e.msg)
  | .ok out =>
    if strContains out.stderr "Connection refused" || strContains out.stderr "asusd" then
      .error AsusctlError.ServiceNotRunning
    else
      .ok out.stdout

-- ============================================================================
-- C3 and C4: stderr classification dominates the exit status
-- ============================================================================

/-- C3: for every captured stdout/stderr/exit-status triple, if the stderr
text contains the service-name token "asusd" or the phrase
"Connection refused", the executor returns `ServiceNotRunning` — in
particular not `CommandFailed` and not success — whatever the exit status,
including a zero (successful) one. -/
theorem run_asusctl_stderr_service_token (out : CmdOutput)
    (h : strContains out.stderr "asusd" = true ∨
         strContains out.stderr "Connection refused" = true) :
    run_asusctl (.ok out) = .error AsusctlError.ServiceNotRunning := by
  rcases h with h | h <;> simp [run_asusctl, h]

theorem run_asusctl_stderr_service_token_witness :
    run_asusctl (.ok ⟨"", "asusd not reachable", true⟩) =
      .error AsusctlError.ServiceNotRunning :=
  run_asusctl_stderr_service_token ⟨"", "asusd not reachable", true⟩ (Or.inl (by decide))

/-- C4: for every captured stdout/stderr/exit-status triple whose stderr
contains neither disqualifying substring, the executor returns the captured
stdout text successfully, regardless of the exit status: a non-zero exit
alone never produces an error. -/
theorem run_asusctl_nonzero_exit_still_ok (out : CmdOutput)
    (h1 : strContains out.stderr "Connection refused" = false)
    (h2 : strContains out.stderr "asusd" = false) :
    run_asusctl (.ok out) = .ok out.stdout := by
  simp [run_asusctl, h1, h2]

theorem run_asusctl_nonzero_exit_still_ok_witness :
    run_asusctl (.ok ⟨"Active profile is Quiet", "some warning", false⟩) =
      .ok "Active profile is Quiet" :=
  run_asusctl_nonzero_exit_still_ok ⟨"Active profile is Quiet", "some warning", false⟩
    (by decide) (by decide)

-- ============================================================================
-- Enumerations and their string conversions
-- ============================================================================

/-- Keyboard backlight level (enum `KeyboardBrightness`). -/
inductive KeyboardBrightness where
  | Off
  | Low
  | Med
  | High
deriving DecidableEq, Repr

/-- `KeyboardBrightness::from_str`: matches on the lowercased input. -/
def keyboardBrightnessFromStr (s : String) : Except AsusctlError KeyboardBrightness :=
  let l := lowerStr s
  if l = "off" then .ok .Off
  else if l = "low" then .ok .Low
  else if l = "med" then .ok .Med
  else if l = "high" then .ok .High
  else .error (.ParseError ("Unknown brightness level: " ++ s))

/-- Power profile (enum `PowerProfile`). -/
inductive PowerProfile where
  | Quiet
  | Balanced
  | Performance
deriving DecidableEq, Repr

/-- `Display` for `PowerProfile` (capitalized names, used as CLI arguments). -/
def powerProfileDisplay : PowerProfile → String
  | .Quiet => "Quiet"
  | .Balanced => "Balanced"
  | .Performance => "Performance"

/-- `PowerProfile::from_str`: matches on the lowercased input. -/
def powerProfileFromStr (s : String) : Except AsusctlError PowerProfile :=
  let l := lowerStr s
  if l = "quiet" then .ok .Quiet
  else if l = "balanced" then .ok .Balanced
  else if l = "performance" then .ok .Performance
  else .error (.ParseError ("Unknown power profile: " ++ s))

/-- Keyboard lighting mode (enum `AuraMode`). -/
inductive AuraMode where
  | Static
  | Breathe
  | Pulse
deriving DecidableEq, Repr

/-- `AuraMode::from_str`: matches on the lowercased input. -/
def auraModeFromStr (s : String) : Except AsusctlError AuraMode :=
  let l := lowerStr s
  if l = "static" then .ok .Static
  else if l = "breathe" then .ok .Breathe
  else if l = "pulse" then .ok .Pulse
  else .error (.ParseError ("Unknown aura mode: " ++ s))

/-- LED-bar animation mode (enum `SlashMode`, 15 variants, default `Flow`). -/
inductive SlashMode where
  | Bounce
  | Slash
  | Loading
  | BitStream
  | Transmission
  | Flow
  | Flux
  | Phantom
  | Spectrum
  | Hazard
  | Interfacing
  | Ramp
  | GameOver
  | Start
  | Buzzer
deriving DecidableEq, Repr

/-- `SlashMode::from_str`: an exact, case-sensitive match on the variant name. -/
def slashModeFromStr (s : String) : Except AsusctlError SlashMode :=
  if s = "Bounce" then .ok .Bounce
  else if s = "Slash" then .ok .Slash
  else if s = "Loading" then .ok .Loading
  else if s = "BitStream" then .ok .BitStream
  else if s = "Transmission" then .ok .Transmission
  else if s = "Flow" then .ok .Flow
  else if s = "Flux" then .ok .Flux
  else if s = "Phantom" then .ok .Phantom
  else if s = "Spectrum" then .ok .Spectrum
  else if s = "Hazard" then .ok .Hazard
  else if s = "Interfacing" then .ok .Interfacing
  else if s = "Ramp" then .ok .Ramp
  else if s = "GameOver" then .ok .GameOver
  else if s = "Start" then .ok .Start
  else if s = "Buzzer" then .ok .Buzzer
  else .error (.ParseError ("Unknown slash mode: " ++ s))

/-- The exact variant-name vocabulary of `SlashMode::from_str`. -/
def slashModeNames : List String :=
  ["Bounce", "Slash", "Loading", "BitStream", "Transmission", "Flow", "Flux",
   "Phantom", "Spectrum", "Hazard", "Interfacing", "Ramp", "GameOver", "Start",
   "Buzzer"]

/-- A string outside the exact vocabulary always draws the `ParseError`. -/
theorem slashModeFromStr_notMem (s : String) (hs : s ∉ slashModeNames) :
    slashModeFromStr s = .error (.ParseError ("Unknown slash mode: " ++ s)) := by
  simp only [slashModeNames, List.mem_cons, List.not_mem_nil, or_false, not_or] at hs
  obtain ⟨h1, h2, h3, h4, h5, h6, h7, h8, h9, h10, h11, h12, h13, h14, h15⟩ := hs
  simp [slashModeFromStr, h1, h2, h3, h4, h5, h6, h7, h8, h9, h10, h11, h12, h13, h14, h15]

/-- Distinct exact names stay distinct after ASCII lowercasing. -/
theorem slashModeNames_lower_inj :
    ∀ a ∈ slashModeNames, ∀ b ∈ slashModeNames, lowerStr a = lowerStr b → a = b := by
  decide

-- ============================================================================
-- C8: SlashMode parsing is case-sensitive, unlike the other three enums
-- ============================================================================

/-- C8: each of the 15 exact-case `SlashMode` names parses to its variant,
while every case variation of a mode name that is not the exact name fails
with `ParseError`; by contrast the `KeyboardBrightness`, `PowerProfile` and
`AuraMode` parsers fold case and accept uppercase spellings. -/
theorem slashMode_parsing_case_sensitive :
    (slashModeFromStr "Bounce" = .ok .Bounce ∧
     slashModeFromStr "Slash" = .ok .Slash ∧
     slashModeFromStr "Loading" = .ok .Loading ∧
     slashModeFromStr "BitStream" = .ok .BitStream ∧
     slashModeFromStr "Transmission" = .ok .Transmission ∧
     slashModeFromStr "Flow" = .ok .Flow ∧
     slashModeFromStr "Flux" = .ok .Flux ∧
     slashModeFromStr "Phantom" = .ok .Phantom ∧
     slashModeFromStr "Spectrum" = .ok .Spectrum ∧
     slashModeFromStr "Hazard" = .ok .Hazard ∧
     slashModeFromStr "Interfacing" = .ok .Interfacing ∧
     slashModeFromStr "Ramp" = .ok .Ramp ∧
     slashModeFromStr "GameOver" = .ok .GameOver ∧
     slashModeFromStr "Start" = .ok .Start ∧
     slashModeFromStr "Buzzer" = .ok .Buzzer) ∧
    (∀ s name, name ∈ slashModeNames → lowerStr s = lowerStr name → s ≠ name →
      slashModeFromStr s = .error (.ParseError ("Unknown slash mode: " ++ s))) ∧
    (keyboardBrightnessFromStr "OFF" = .ok .Off ∧
     powerProfileFromStr "QUIET" = .ok .Quiet ∧
     auraModeFromStr "STATIC" = .ok .Static) := by
  refine ⟨by decide, ?_, by decide⟩
  intro s name hname hlow hne
  apply slashModeFromStr_notMem
  intro hs
  exact hne (slashModeNames_lower_inj s hs name hname hlow)

theorem slashMode_parsing_case_sensitive_witness :
    slashModeFromStr "bitstream" = .error (.ParseError "Unknown slash mode: bitstream") := by
  have h := slashMode_parsing_case_sensitive.2.1 "bitstream" "BitStream"
    (by decide) (by decide) (by decide)
  simpa using h

-- ============================================================================
-- C1: two-tier profile write (secondary tool first, primary as fallback)
-- ============================================================================

/-- Modelled from the spec: the secondary power-management tool's distinct
string vocabulary for the three profiles, {"power-saver", "balanced",
"performance"}, in ordinal order. The variant of the backend module that
invokes the secondary tool is not among the sources under src/; only the
primary-tool-only variant of `set_profile` is. -/
def secondaryVocabulary : PowerProfile → String
  | .Quiet => "power-saver"
  | .Balanced => "balanced"
  | .Performance => "performance"

/-- Modelled from the spec: the profile write operation of the backend variant
missing from src/. It first invokes the secondary power-management tool as
`set <name>` with the distinct vocabulary; on any failure of that tool
(including its binary being missing) it silently falls through to the primary
tool's `profile --profile-set <CapitalizedName>`, and the secondary tool's
error never reaches the caller. The two tool invocations are abstracted as
functions from the argument list to the outcome. -/
def set_profile_with_fallback (p : PowerProfile)
    (secondaryRun : List String → Except String Unit)
    (primaryRun : List String → Except AsusctlError String) : Except AsusctlError Unit :=
  match secondaryRun ["set", secondaryVocabulary p] with
  | .ok _ => .ok ()
  | .error _ =>
    match primaryRun ["profile", "--profile-set", powerProfileDisplay p] with
    | .ok _ => .ok ()
    | .error e => .error e

/-- C1: the profile write tries the secondary tool first with its distinct
vocabulary mapping; whenever that invocation fails — with any error text,
a missing binary included — the operation's outcome is exactly the outcome
of running the primary tool with arguments
["profile", "--profile-set", CapitalizedName], so the secondary tool's error
is never surfaced to the caller; and when the secondary tool succeeds the
operation succeeds without consulting the primary tool's outcome. -/
theorem set_profile_fallback_swallows_secondary :
    (secondaryVocabulary .Quiet = "power-saver" ∧
     secondaryVocabulary .Balanced = "balanced" ∧
     secondaryVocabulary .Performance = "performance") ∧
    (∀ (p : PowerProfile) (secondaryRun : List String → Except String Unit)
       (primaryRun : List String → Except AsusctlError String) (err : String),
      secondaryRun ["set", secondaryVocabulary p] = .error err →
      set_profile_with_fallback p secondaryRun primaryRun =
        match primaryRun ["profile", "--profile-set", powerProfileDisplay p] with
        | .ok _ => .ok ()
        | .error e => .error e) ∧
    (∀ (p : PowerProfile) (secondaryRun : List String → Except String Unit)
       (primaryRun : List String → Except AsusctlError String),
      secondaryRun ["set", secondaryVocabulary p] = .ok () →
      set_profile_with_fallback p secondaryRun primaryRun = .ok ()) := by
  refine ⟨⟨rfl, rfl, rfl⟩, ?_, ?_⟩
  · intro p secondaryRun primaryRun err h
    simp [set_profile_with_fallback, h]
  · intro p secondaryRun primaryRun h
    simp [set_profile_with_fallback, h]

theorem set_profile_fallback_swallows_secondary_witness :
    set_profile_with_fallback .Balanced
      (fun _ => .error "secondary tool not installed")
      (fun _ => .ok "") = .ok () := by
  have h := set_profile_fallback_swallows_secondary.2.1 .Balanced
    (fun _ => .error "secondary tool not installed") (fun _ => .ok "")
    "secondary tool not installed" rfl
  simpa using h

-- ============================================================================
-- Section extractor (extract_section)
-- ============================================================================

/-- Occurrences of a character in a string (models `str::matches(c).count()`). -/
def countChar (c : Char) (s : String) : Nat :=
  (s.data.filter (fun a => a == c)).length

/-- The loop of `extract_section`: any line containing the header is skipped
and (re)enters the section; inside the section each line's bracket counts
adjust the depth and the line plus a newline is appended; the loop stops
right after a line that both closes all brackets (depth at or below zero)
and contains a closing bracket. -/
def extractSectionGo (header : String) :
    List String → Bool → Int → String → String
  | [], _, _, acc => acc
  | line :: rest, inSection, depth, acc =>
    if strContains line header then
      extractSectionGo header rest true depth acc
    else if inSection then
      let depth2 := depth + (countChar '[' line : Int) - (countChar ']' line : Int)
      let acc2 := acc ++ line ++ "\n"
      if depth2 ≤ 0 ∧ strContains line "]" = true then acc2
      else extractSectionGo header rest true depth2 acc2
    else
      extractSectionGo header rest false depth acc

/-- `extract_section`: text of the lines strictly after the first line
containing the header, up to and including the bracket-closing line. -/
def extract_section (output header : String) : String :=
  extractSectionGo header (rustLines output) false 0 ""

/-- While no line contains the header, the loop never enters the section and
returns the accumulator unchanged. -/
theorem extractSectionGo_no_header (header : String) (lines : List String)
    (depth : Int) (acc : String)
    (h : ∀ l ∈ lines, strContains l header = false) :
    extractSectionGo header lines false depth acc = acc := by
  induction lines with
  | nil => rfl
  | cons l ls ih =>
    have hl := h l (List.mem_cons_self l ls)
    have hrest : ∀ x ∈ ls, strContains x header = false :=
      fun x hx => h x (List.mem_cons_of_mem l hx)
    simp [extractSectionGo, hl, ih hrest]

-- ============================================================================
-- C5: the header's own line is skipped by the section extractor
-- ============================================================================

/-- C5 counterexample: on the single-line input
"Supported Aura Modes: [Static, Breathe, Pulse]" — header and bracketed list
on the same line — the extractor returns the empty string, which contains
none of the three names, because the line containing the header is itself
skipped and only later lines are collected. -/
theorem extract_section_single_line_counterexample :
    extract_section "Supported Aura Modes: [Static, Breathe, Pulse]"
        "Supported Aura Modes:" = "" ∧
    strContains "" "Static" = false ∧
    strContains "" "Breathe" = false ∧
    strContains "" "Pulse" = false := by
  refine ⟨by decide, by decide, by decide, by decide⟩

/-- C5 (amended): when the bracketed list "[Static, Breathe, Pulse]" stands on
the line after the one containing the header "Supported Aura Modes:", the
extractor returns text containing all three names; and on any input in which
the header string appears in no line, it returns the empty string. -/
theorem extract_section_bracketed_list :
    (strContains
        (extract_section "Supported Aura Modes:\n[Static, Breathe, Pulse]"
          "Supported Aura Modes:") "Static" = true ∧
     strContains
        (extract_section "Supported Aura Modes:\n[Static, Breathe, Pulse]"
          "Supported Aura Modes:") "Breathe" = true ∧
     strContains
        (extract_section "Supported Aura Modes:\n[Static, Breathe, Pulse]"
          "Supported Aura Modes:") "Pulse" = true) ∧
    (∀ output header : String,
      (∀ l ∈ rustLines output, strContains l header = false) →
      extract_section output header = "") := by
  refine ⟨⟨by decide, by decide, by decide⟩, ?_⟩
  intro output header h
  exact extractSectionGo_no_header header (rustLines output) 0 "" h

theorem extract_section_bracketed_list_witness :
    extract_section "Supported: nothing relevant" "Supported Aura Modes:" = "" :=
  extract_section_bracketed_list.2 "Supported: nothing relevant"
    "Supported Aura Modes:" (by decide)

-- ============================================================================
-- System-info parser (parse_system_info)
-- ============================================================================

/-- Version/product/board record (struct `SystemInfo`, all fields default ""). -/
structure SystemInfo where
  asusctl_version : String
  product_family : String
  board_name : String
deriving DecidableEq, Repr

/-- One iteration of the `parse_system_info` loop: the line is trimmed and the
first matching label prefix of the if/else-if chain overwrites its field. -/
def sysInfoStep (info : SystemInfo) (line : String) : SystemInfo :=
  let l := strTrim line
  if startsWithStr l "asusctl version:" then
    { info with asusctl_version := strTrim (dropPref l "asusctl version:") }
  else if startsWithStr l "Product family:" then
    { info with product_family := strTrim (dropPref l "Product family:") }
  else if startsWithStr l "Board name:" then
    { info with board_name := strTrim (dropPref l "Board name:") }
  else
    info

/-- `parse_system_info`: fold the step over the lines, starting from the
all-empty record; the function always returns Ok. -/
def parse_system_info (output : String) : Except AsusctlError SystemInfo :=
  .ok ((rustLines output).foldl sysInfoStep ⟨"", "", ""⟩)

/-- The value the version branch of the chain extracts from a line, when that
branch fires. -/
def verMatch (line : String) : Option String :=
  let l := strTrim line
  if startsWithStr l "asusctl version:" then
    some (strTrim (dropPref l "asusctl version:"))
  else none

/-- The value the product-family branch extracts, respecting chain order. -/
def famMatch (line : String) : Option String :=
  let l := strTrim line
  if startsWithStr l "asusctl version:" then none
  else if startsWithStr l "Product family:" then
    some (strTrim (dropPref l "Product family:"))
  else none

/-- The value the board-name branch extracts, respecting chain order. -/
def boardMatch (line : String) : Option String :=
  let l := strTrim line
  if startsWithStr l "asusctl version:" then none
  else if startsWithStr l "Product family:" then none
  else if startsWithStr l "Board name:" then
    some (strTrim (dropPref l "Board name:"))
  else none

/-- The system-info parser the claim describes, written from its words:
the FIRST matching line per label sets the field. -/
def parse_system_info_firstWins (output : String) : Except AsusctlError SystemInfo :=
  .ok { asusctl_version := (((rustLines output).filterMap verMatch).head?).getD "",
        product_family := (((rustLines output).filterMap famMatch).head?).getD "",
        board_name := (((rustLines output).filterMap boardMatch).head?).getD "" }

theorem getLastD_cons {α : Type} (v d : α) (xs : List α) :
    ((v :: xs).getLast?).getD d = (xs.getLast?).getD v := by
  induction xs generalizing v d with
  | nil => rfl
  | cons y ys ih => rw [List.getLast?_cons_cons, ih y d, ih y v]

/-- The parser's fold keeps, for each label, the value of the last line the
corresponding branch of the chain fires on. -/
theorem foldl_sysInfoStep (lines : List String) (info : SystemInfo) :
    lines.foldl sysInfoStep info =
      { asusctl_version := ((lines.filterMap verMatch).getLast?).getD info.asusctl_version,
        product_family := ((lines.filterMap famMatch).getLast?).getD info.product_family,
        board_name := ((lines.filterMap boardMatch).getLast?).getD info.board_name } := by
  induction lines generalizing info with
  | nil => simp
  | cons l ls ih =>
    rw [List.foldl_cons, ih]
    by_cases h1 : startsWithStr (strTrim l) "asusctl version:" = true
    · simp [sysInfoStep, verMatch, famMatch, boardMatch, h1, List.filterMap_cons,
        getLastD_cons]
    · by_cases h2 : startsWithStr (strTrim l) "Product family:" = true
      · simp [sysInfoStep, verMatch, famMatch, boardMatch, h1, h2,
          List.filterMap_cons, getLastD_cons]
      · by_cases h3 : startsWithStr (strTrim l) "Board name:" = true
        · simp [sysInfoStep, verMatch, famMatch, boardMatch, h1, h2, h3,
            List.filterMap_cons, getLastD_cons]
        · simp [sysInfoStep, verMatch, famMatch, boardMatch, h1, h2, h3,
            List.filterMap_cons]

-- ============================================================================
-- C6: repeated labels — the last matching line wins, not the first
-- ============================================================================

/-- C6 counterexample: on an input whose trimmed lines carry the label
"asusctl version:" twice, the parser reports the value of the second
(last) matching line, while the claimed first-match-wins parser reports the
first; the two disagree on this input. -/
theorem parse_system_info_repeated_label_counterexample :
    parse_system_info "asusctl version: 1.0\nasusctl version: 2.0" =
      .ok ⟨"2.0", "", ""⟩ ∧
    parse_system_info_firstWins "asusctl version: 1.0\nasusctl version: 2.0" =
      .ok ⟨"1.0", "", ""⟩ ∧
    parse_system_info "asusctl version: 1.0\nasusctl version: 2.0" ≠
      parse_system_info_firstWins "asusctl version: 1.0\nasusctl version: 2.0" := by
  refine ⟨by decide, by decide, by decide⟩

/-- C6 (amended): for every input text, the system-info parser returns Ok of
the record whose every field holds the value extracted from the LAST trimmed
line matching that field's label (last match per label wins, under the
version / product-family / board-name chain order); a label with no matching
line leaves its field at the empty default. -/
theorem parse_system_info_last_match_wins (output : String) :
    parse_system_info output =
      .ok { asusctl_version := (((rustLines output).filterMap verMatch).getLast?).getD "",
            product_family := (((rustLines output).filterMap famMatch).getLast?).getD "",
            board_name := (((rustLines output).filterMap boardMatch).getLast?).getD "" } := by
  unfold parse_system_info
  rw [foldl_sysInfoStep]

-- ============================================================================
-- Slash config-file parsing (parse_slash_config and helpers)
-- ============================================================================

/-- LED-bar state (struct `SlashState`); brightness and interval are byte
fields, modeled as naturals reduced mod 256 at every store. -/
structure SlashState where
  enabled : Bool
  brightness : Nat
  interval : Nat
  mode : SlashMode
deriving DecidableEq, Repr

/-- `SlashState::default()`: disabled, zero brightness and interval, `Flow`. -/
def slashStateDefault : SlashState := ⟨false, 0, 0, .Flow⟩

/-- `extract_number`: the second segment of the colon split (`nth(1)`),
whitespace-trimmed, stripped of trailing commas, parsed as a `u32`. -/
def extract_number (line : String) : Option Nat :=
  match (splitOnChar ':' line.data)[1]? with
  | some second => parseU32 (dropTrailCommas (trimChars second))
  | none => none

/-- `extract_string_value`: the second segment of the colon split,
whitespace-trimmed and stripped of trailing commas, as a string. -/
def extract_string_value (line : String) : Option String :=
  match (splitOnChar ':' line.data)[1]? with
  | some second => some ⟨dropTrailCommas (trimChars second)⟩
  | none => none

/-- One iteration of the `parse_slash_config` loop over trimmed lines. -/
def slashCfgStep (st : SlashState) (line : String) : SlashState :=
  let l := strTrim line
  if startsWithStr l "enabled:" then
    { st with enabled := strContains l "true" }
  else if startsWithStr l "brightness:" then
    match extract_number l with
    | some v => { st with brightness := v % 256 }
    | none => st
  else if startsWithStr l "display_interval:" then
    match extract_number l with
    | some v => { st with interval := v % 256 }
    | none => st
  else if startsWithStr l "display_mode:" then
    match extract_string_value l with
    | some ms =>
      { st with mode := match slashModeFromStr ms with
                        | .ok m => m
                        | .error _ => SlashMode.Flow }
    | none => st
  else st

/-- `parse_slash_config`, with the outcome of reading the config file made an
explicit argument: a read failure becomes a `ParseError` wrapping the OS
error text; otherwise the line loop runs from the default state. -/
def parse_slash_config (readResult : Except String String) :
    Except AsusctlError SlashState :=
  match readResult with
  | .error e => .error (.ParseError ("Failed to read slash config: " ++ e))
  | .ok content => .ok ((rustLines content).foldl slashCfgStep slashStateDefault)

-- ============================================================================
-- C7: the numeric-field helper — colon split and trailing-comma stripping
-- ============================================================================

/-- Everything after the first occurrence of a colon, if any. -/
def afterFirstColon : List Char → Option (List Char)
  | [] => none
  | c :: rest => if c == ':' then some rest else afterFirstColon rest

/-- The characters up to the next colon or the end. -/
def takeUntilColon (l : List Char) : List Char :=
  l.takeWhile (fun c => !(c == ':'))

/-- The numeric-field helper as the claim words it: everything after the
first colon, whitespace-trimmed, EXACTLY ONE trailing comma removed, parsed
as an unsigned integer. -/
def extract_number_claimWords (line : String) : Option Nat :=
  match afterFirstColon line.data with
  | some rest =>
    let t := trimChars rest
    let t2 := match t.reverse with
      | ',' :: r => r.reverse
      | _ => t
    parseU32 t2
  | none => none

/-- The numeric-field helper as the amended claim words it: the text between
the first colon and the next colon or end of line, whitespace-trimmed, with
ALL trailing commas removed, parsed as an unsigned integer. -/
def extract_number_amendedWords (line : String) : Option Nat :=
  match afterFirstColon line.data with
  | some rest => parseU32 (dropTrailCommas (trimChars (takeUntilColon rest)))
  | none => none

/-- The first segment of the colon split is the text before the first colon. -/
theorem splitOnChar_head (l : List Char) :
    (splitOnChar ':' l)[0]? = some (l.takeWhile (fun c => !(c == ':'))) := by
  induction l with
  | nil => rfl
  | cons a as ih =>
    by_cases ha : (a == ':') = true
    · simp [splitOnChar, ha, List.takeWhile_cons]
    · cases hsp : splitOnChar ':' as with
      | nil => rw [hsp] at ih; simp at ih
      | cons h t =>
        rw [hsp] at ih
        simp only [List.getElem?_cons_zero, Option.some_inj] at ih
        simp [splitOnChar, ha, hsp, List.takeWhile_cons, ih]

/-- The second segment of the colon split is the text between the first
colon and the next colon or end. -/
theorem splitOnChar_second (l : List Char) :
    (splitOnChar ':' l)[1]? =
      (afterFirstColon l).map (fun rest => rest.takeWhile (fun c => !(c == ':'))) := by
  induction l with
  | nil => rfl
  | cons a as ih =>
    by_cases ha : (a == ':') = true
    · simp [splitOnChar, ha, afterFirstColon, splitOnChar_head as]
    · cases hsp : splitOnChar ':' as with
      | nil =>
        have hh := splitOnChar_head as
        rw [hsp] at hh; simp at hh
      | cons h t =>
        rw [hsp] at ih
        simp only [List.getElem?_cons_succ] at ih
        simp [splitOnChar, ha, hsp, afterFirstColon, List.getElem?_cons_succ, ih]

/-- C7 counterexample: the helper strips ALL trailing commas, not exactly
one, and reads only up to the second colon, not everything after the first:
on "brightness: 7,," the code yields 7 where the claimed helper fails, and
on "brightness: 2:3," the code yields 2 where the claimed helper fails. -/
theorem extract_number_counterexample :
    extract_number "brightness: 7,," = some 7 ∧
    extract_number_claimWords "brightness: 7,," = none ∧
    extract_number "brightness: 2:3," = some 2 ∧
    extract_number_claimWords "brightness: 2:3," = none := by
  refine ⟨by decide, by decide, by decide, by decide⟩

/-- Two prefix tests on the same list agree on their first character. -/
theorem isPrefOf_head_eq (a b : Char) (as bs l : List Char)
    (ha : isPrefOf (a :: as) l = true) (hb : isPrefOf (b :: bs) l = true) :
    a = b := by
  cases l with
  | nil => simp [isPrefOf] at ha
  | cons c cs =>
    simp only [isPrefOf, Bool.and_eq_true, beq_iff_eq] at ha hb
    rw [ha.1, hb.1]

/-- C7 (amended): the numeric-field helper takes the text between the first
colon and the next colon (or end of line), trims whitespace and ALL trailing
commas, and parses it as an unsigned integer; when it parses a value from a
"brightness:" line, the value is stored truncated mod 256 into the byte-sized
field (out-of-range values are truncated, not rejected), and
"brightness: 255," yields 255. -/
theorem extract_number_amended :
    (∀ line : String, extract_number line = extract_number_amendedWords line) ∧
    (∀ (st : SlashState) (line : String) (v : Nat),
      startsWithStr (strTrim line) "brightness:" = true →
      extract_number (strTrim line) = some v →
      (slashCfgStep st line).brightness = v % 256) ∧
    extract_number "brightness: 255," = some 255 := by
  refine ⟨?_, ?_, by decide⟩
  · intro line
    unfold extract_number extract_number_amendedWords
    rw [splitOnChar_second]
    cases afterFirstColon line.data with
    | none => rfl
    | some rest => simp [takeUntilColon]
  · intro st line v hb he
    have hne : startsWithStr (strTrim line) "enabled:" = false := by
      by_contra hc
      rw [Bool.not_eq_false] at hc
      have hab : 'e' = 'b' :=
        isPrefOf_head_eq 'e' 'b' "nabled:".data "rightness:".data
          (strTrim line).data hc hb
      simp at hab
    simp [slashCfgStep, hne, hb, he]

theorem extract_number_amended_witness :
    (slashCfgStep slashStateDefault "brightness: 300,").brightness = 44 := by
  have h := extract_number_amended.2.1 slashStateDefault "brightness: 300," 300
    (by decide) (by decide)
  simpa using h

-- ============================================================================
-- Slash facade reads (get_slash_enabled, get_slash_state)
-- ============================================================================

/-- Is an `Except` value a success? -/
def isOkE {eps alp : Type} : Except eps alp → Bool
  | .ok _ => true
  | .error _ => false

/-- `get_slash_enabled`: the property-bus read if it succeeds, otherwise the
`enabled` field of the config-file parse, otherwise the config parse error.
The bus read outcome and the config read outcome are explicit arguments. -/
def get_slash_enabled (busRead : Except AsusctlError Bool)
    (readResult : Except String String) : Except AsusctlError Bool :=
  match busRead with
  | .ok v => .ok v
  | .error _ =>
    match parse_slash_config readResult with
    | .ok st => .ok st.enabled
    | .error e => .error e

/-- `get_slash_state`: when the three property-bus reads (enabled,
brightness, interval) all succeed, a state built from them with the default
mode; otherwise the config-file parse, wholesale. -/
def get_slash_state (enabledRead : Except AsusctlError Bool)
    (brightnessRead intervalRead : Except AsusctlError Nat)
    (readResult : Except String String) : Except AsusctlError SlashState :=
  match enabledRead, brightnessRead, intervalRead with
  | .ok e, .ok b, .ok i =>
    .ok { enabled := e, brightness := b, interval := i, mode := .Flow }
  | _, _, _ => parse_slash_config readResult

-- ============================================================================
-- C2: the slash-enabled facade read swallows the bus error
-- ============================================================================

/-- C2: whatever error the property-bus slash-enabled read returns, the
facade read yields exactly the config-file parse's result projected to its
enabled field — in particular Ok true when the config's enabled line
contains "true", and the config parser's own wrapped read error when the
config read fails — never the bus error itself. -/
theorem get_slash_enabled_swallows_bus_error (e : AsusctlError)
    (r : Except String String) :
    get_slash_enabled (.error e) r =
      (parse_slash_config r).map (fun st => st.enabled) ∧
    get_slash_enabled (.error e) (.ok "enabled: true,") = .ok true ∧
    (∀ msg, get_slash_enabled (.error e) (.error msg) =
      .error (.ParseError ("Failed to read slash config: " ++ msg))) := by
  refine ⟨?_, ?_, fun msg => rfl⟩
  · cases h : parse_slash_config r <;> simp [get_slash_enabled, h, Except.map]
  · rfl

-- ============================================================================
-- C9: the bus path of the combined state always reports mode Flow
-- ============================================================================

/-- C9: when all three property-bus reads succeed, the combined slash state
is built from their three values with the mode field always the default
`SlashMode.Flow`, no matter what the device's actual mode is (no mode read is
consulted); and when any one of the three reads fails, the whole returned
state — every field — is the config-file parse's result. -/
theorem get_slash_state_sources :
    (∀ (e : Bool) (b i : Nat) (r : Except String String),
      get_slash_state (.ok e) (.ok b) (.ok i) r =
        .ok ⟨e, b, i, SlashMode.Flow⟩) ∧
    (∀ (enabledRead : Except AsusctlError Bool)
       (brightnessRead intervalRead : Except AsusctlError Nat)
       (r : Except String String),
      isOkE enabledRead = false ∨ isOkE brightnessRead = false ∨
        isOkE intervalRead = false →
      get_slash_state enabledRead brightnessRead intervalRead r =
        parse_slash_config r) := by
  constructor
  · intro e b i r; rfl
  · intro eR bR iR r h
    cases eR <;> cases bR <;> cases iR <;> simp_all [get_slash_state, isOkE]

theorem get_slash_state_sources_witness :
    get_slash_state (.error AsusctlError.ServiceNotRunning) (.ok 5) (.ok 1)
      (.ok "enabled: true,\nbrightness: 128,") =
      .ok ⟨true, 128, 0, SlashMode.Flow⟩ :=
  (get_slash_state_sources.2 (.error AsusctlError.ServiceNotRunning) (.ok 5)
    (.ok 1) (.ok "enabled: true,\nbrightness: 128,")
    (Or.inl (by decide))).trans (by decide)

-- ============================================================================
-- C10: busctl spawn failures are CommandFailed, never NotInstalled
-- ============================================================================

/-- `read_dbus_property_at`, with the busctl spawn outcome made an explicit
argument: every spawn error, whatever its kind, becomes `CommandFailed`
wrapping the OS error text; on captured output, a non-zero exit is
classified by stderr, and success returns the trimmed stdout. -/
def read_dbus_property_at (path interfaceName property : String)
    (spawn : Except SpawnError CmdOutput) : Except AsusctlError String :=
  match spawn with
  | .error e => .error (.CommandFailed ("busctl failed: " ++ e.msg))
  | .ok out =>
    if !out.success then
      if strContains out.stderr "No such" || strContains out.stderr "not found" then
        .error .ServiceNotRunning
      else
        .error (.CommandFailed out.stderr)
    else
      .ok (strTrim out.stdout)

/-- C10: whenever spawning the bus-introspection utility fails — the
binary-not-found kind included — the property read returns `CommandFailed`
wrapping the OS error text, and never `NotInstalled`; `NotInstalled` is what
the external control executable's runner produces for the not-found kind. -/
theorem read_dbus_property_spawn_failure
    (path interfaceName property : String) (e : SpawnError) :
    read_dbus_property_at path interfaceName property (.error e) =
      .error (.CommandFailed ("busctl failed: " ++ e.msg)) ∧
    read_dbus_property_at path interfaceName property (.error e) ≠
      .error .NotInstalled ∧
    run_asusctl (.error ⟨true, e.msg⟩) = .error .NotInstalled := by
  refine ⟨rfl, ?_, rfl⟩
  simp [read_dbus_property_at]

theorem get_slash_enabled_swallows_bus_error_witness :
    get_slash_enabled (.error AsusctlError.ServiceNotRunning)
      (.ok "enabled: true,") = .ok true :=
  (get_slash_enabled_swallows_bus_error AsusctlError.ServiceNotRunning
    (.ok "enabled: true,")).2.1

theorem parse_system_info_last_match_wins_witness :
    parse_system_info
      "asusctl version: 6.2.0\n Product family: ROG Zephyrus G14\n     Board name: GA403UV" =
      .ok ⟨"6.2.0", "ROG Zephyrus G14", "GA403UV"⟩ :=
  (parse_system_info_last_match_wins
    "asusctl version: 6.2.0\n Product family: ROG Zephyrus G14\n     Board name: GA403UV").trans
    (by decide)

theorem read_dbus_property_spawn_failure_witness :
    read_dbus_property_at "/xyz/ljones" "xyz.ljones.Platform" "PlatformProfile"
      (.error ⟨true, "entity not found"⟩) =
      .error (.CommandFailed "busctl failed: entity not found") := by
  have h := (read_dbus_property_spawn_failure "/xyz/ljones" "xyz.ljones.Platform"
    "PlatformProfile" ⟨true, "entity not found"⟩).1
  simpa using h
